import Mathlib

/-!
Verification of the QuickTalk chat backend's storage layer.

This file gives a shallow embedding, in Lean 4, of the MongoDB-backed
storage layer of the QuickTalk repository:

* src/server/models/User.ts     — the user schema,
* src/server/models/Message.ts  — the message schema and its pre-save
  addressing validation hook,
* src/server/models/Group.ts    — the group schema,
* src/server/storage.ts         — the `MongoStorage` class with all store
  operations and the read-time transforms,
* the HTTP route for user search (registerRoutes, `/api/users/search`),
  which guards the empty query before calling the store.

The database is modelled as explicit state: three record collections in
insertion order plus id counters (Mongo generates increasing ObjectIds; we
use a counter for message and group ids and caller-supplied opaque strings
for user ids).  Mongo's `.sort('timestamp')` guarantees only ascending
sort keys: the relative order of documents with equal timestamps is
unspecified and may differ between executions.  Order-sensitive properties
are therefore stated against `mongoSortResult`, which admits every
timestamp-sorted permutation of the matched documents, while the
executable read-path functions pick one admissible result (via insertion
sort) and are used by the claims only through order-insensitive
membership.  `$regex` with option
`'i'` is embedded, for metacharacter-free patterns, as case-insensitive
substring containment, `$addToSet`/`$pull` as order-preserving set
union/removal, and a thrown `Error` as an `Except` value carrying a
constructor per distinct error string of the source.

Theorems `claim1` … `claim10` settle the frozen specification claims.
-/

namespace QuickTalk

/-- A stored user record (collection `users`, src/server/models/User.ts).
`id` is the Mongo-generated `_id` (opaque string), `lastSeen` a timestamp
modelled as `Nat`. -/
structure StoredUser where
  id : String
  username : String
  password : String
  isOnline : Bool
  lastSeen : Nat
deriving Repr, DecidableEq

/-- A stored message record (collection `messages`,
src/server/models/Message.ts).  `id` is the Mongo `_id`, modelled as a `Nat`
drawn from a counter so that ids also record creation sequence.
`recipientId` and `groupId` are the two optional addressing fields;
`fileUrl`/`fileName`/`fileType` the optional attachment metadata. -/
structure StoredMessage where
  id : Nat
  senderId : String
  recipientId : Option String
  groupId : Option Nat
  content : String
  fileUrl : Option String
  fileName : Option String
  fileType : Option String
  timestamp : Nat
  isDeleted : Bool
deriving Repr, DecidableEq

/-- A stored group record (collection `groups`,
src/server/models/Group.ts): name, admin user id, member user ids (a list
kept duplicate-free by the operations), creation time. -/
structure StoredGroup where
  id : Nat
  name : String
  admin : String
  members : List String
  createdAt : Nat
deriving Repr, DecidableEq

/-- The whole persistent state: the three collections, each in insertion
order, plus the id counters standing for Mongo's monotone ObjectId
generation. -/
structure DB where
  users : List StoredUser
  messages : List StoredMessage
  groups : List StoredGroup
  nextMessageId : Nat
  nextGroupId : Nat
deriving Repr, DecidableEq

/-- The `User` value returned to callers (shared/schema.ts), produced by
`MongoStorage.transformUser`. -/
structure UserOut where
  id : String
  username : String
  password : String
  isOnline : Bool
  lastSeen : Nat
deriving Repr, DecidableEq

/-- The `Message` value returned to callers (shared/schema.ts), produced by
`MongoStorage.transformMessage`. -/
structure MessageOut where
  id : Nat
  senderId : String
  recipientId : Option String
  groupId : Option Nat
  content : String
  timestamp : Nat
  isDeleted : Bool
  fileUrl : Option String
  fileName : Option String
  fileType : Option String
deriving Repr, DecidableEq

/-- The `Group` value returned to callers, produced by
`MongoStorage.transformGroup` (members/admin resolved to their id
strings). -/
structure GroupOut where
  id : Nat
  name : String
  adminId : String
  memberIds : List String
  createdAt : Nat
deriving Repr, DecidableEq

/-- One constructor per distinct `Error` thrown by the storage layer or by
the message schema's pre-save hook. -/
inductive StorageError where
  | messageNeedsAddress
  | messageBothAddresses
  | unauthorizedMessageDelete
  | unauthorizedGroupDelete
  | userNotFound
  | duplicateUsername
deriving Repr, DecidableEq

/-- The literal message string of each thrown `Error` in the source. -/
def errorText : StorageError → String
  | .messageNeedsAddress => "Message must have either a recipient or a group"
  | .messageBothAddresses => "Message cannot have both recipient and group"
  | .unauthorizedMessageDelete => "Unauthorized to delete this message"
  | .unauthorizedGroupDelete => "Unauthorized to delete this group"
  | .userNotFound => "User not found"
  | .duplicateUsername => "E11000 duplicate key error"

/-- Embeds `MongoStorage.transformUser` (storage.ts lines 171-179). -/
def transformUser (u : StoredUser) : UserOut :=
  { id := u.id, username := u.username, password := u.password,
    isOnline := u.isOnline, lastSeen := u.lastSeen }

/-- Embeds `MongoStorage.transformMessage` (storage.ts lines 181-208): a
deleted message is redacted at read time — fixed placeholder content, all
three attachment fields nulled, identity/addressing/timestamp preserved; a
live message is returned as stored. -/
def transformMessage (m : StoredMessage) : MessageOut :=
  if m.isDeleted then
    { id := m.id, senderId := m.senderId, recipientId := m.recipientId,
      groupId := m.groupId, content := "This message was deleted",
      timestamp := m.timestamp, isDeleted := true,
      fileUrl := none, fileName := none, fileType := none }
  else
    { id := m.id, senderId := m.senderId, recipientId := m.recipientId,
      groupId := m.groupId, content := m.content,
      timestamp := m.timestamp, isDeleted := false,
      fileUrl := m.fileUrl, fileName := m.fileName, fileType := m.fileType }

/-- Embeds `MongoStorage.transformGroup` (storage.ts lines 210-218). -/
def transformGroup (g : StoredGroup) : GroupOut :=
  { id := g.id, name := g.name, adminId := g.admin,
    memberIds := g.members, createdAt := g.createdAt }

/-- The caller-supplied part of a new message
(`Omit<MessageType, "id" | "timestamp">` in storage.ts line 69; `isDeleted`
is overwritten to `false` by `createMessage` itself). -/
structure NewMessage where
  senderId : String
  recipientId : Option String
  groupId : Option Nat
  content : String
  fileUrl : Option String
  fileName : Option String
  fileType : Option String
deriving Repr, DecidableEq

/-- Embeds the message schema's pre-save hook (Message.ts lines 84-93):
reject a document with neither addressing field, reject one with both,
accept otherwise.  Runs on every save — both `Message.create` and the
`message.save()` inside `deleteMessage`. -/
def saveValidate (m : StoredMessage) : Except StorageError Unit :=
  if !m.recipientId.isSome && !m.groupId.isSome then
    .error .messageNeedsAddress
  else if m.recipientId.isSome && m.groupId.isSome then
    .error .messageBothAddresses
  else
    .ok ()

/-- The document built by `createMessage` before saving: the caller's
fields plus a fresh id, `timestamp = now` and `isDeleted = false`. -/
def freshMessage (db : DB) (now : Nat) (d : NewMessage) : StoredMessage :=
  { id := db.nextMessageId, senderId := d.senderId,
    recipientId := d.recipientId, groupId := d.groupId,
    content := d.content, fileUrl := d.fileUrl, fileName := d.fileName,
    fileType := d.fileType, timestamp := now, isDeleted := false }

/-- Embeds `MongoStorage.createMessage` (storage.ts lines 69-76): stamp
`timestamp = now` and `isDeleted = false`, then `Message.create`, which
runs the pre-save hook; on success the new document is appended to the
collection and returned transformed. -/
def createMessage (db : DB) (now : Nat) (d : NewMessage) :
    Except StorageError (DB × MessageOut) :=
  match saveValidate (freshMessage db now d) with
  | .error e => .error e
  | .ok () =>
      .ok ({ db with messages := db.messages ++ [freshMessage db now d],
                     nextMessageId := db.nextMessageId + 1 },
           transformMessage (freshMessage db now d))

/-- The `$or` filter of `getMessagesBetweenUsers` (storage.ts lines
79-84): sender/recipient is the pair in either orientation. -/
def directMatch (a b : String) (m : StoredMessage) : Bool :=
  (m.senderId == a && m.recipientId == some b) ||
  (m.senderId == b && m.recipientId == some a)

/-- Ascending-timestamp order used by `.sort('timestamp')`. -/
def tsLe (a b : StoredMessage) : Prop :=
  a.timestamp ≤ b.timestamp

instance : DecidableRel tsLe := fun a b =>
  inferInstanceAs (Decidable (a.timestamp ≤ b.timestamp))

instance : IsTotal StoredMessage tsLe :=
  ⟨fun a b => Nat.le_total a.timestamp b.timestamp⟩

instance : IsTrans StoredMessage tsLe :=
  ⟨fun _ _ _ => Nat.le_trans⟩

/-- Embeds `MongoStorage.getMessagesBetweenUsers` (storage.ts lines
78-86): filter the collection by the `$or` pair condition, sort ascending
by timestamp, and transform each document.  The insertion sort used here
picks one admissible result of Mongo's underspecified `.sort('timestamp')`
(see `mongoSortResult` and `betweenRead`: the program pins down no order
among documents with equal timestamps); the claims use this function only
through order-insensitive membership. -/
def getMessagesBetweenUsers (db : DB) (user1Id user2Id : String) :
    List MessageOut :=
  (List.insertionSort tsLe
    (db.messages.filter (directMatch user1Id user2Id))).map transformMessage

/-- Embeds `MongoStorage.getGroupMessages` (storage.ts lines 157-160):
filter by `groupId`, sort ascending by timestamp, transform.  As with
`getMessagesBetweenUsers`, the insertion sort picks one admissible result
of the underspecified Mongo sort (see `groupRead`); claims use this
function only through order-insensitive membership. -/
def getGroupMessages (db : DB) (groupId : Nat) : List MessageOut :=
  (List.insertionSort tsLe
    (db.messages.filter (fun m => m.groupId == some groupId))).map
    transformMessage

/-- An admissible result of Mongo's `.sort('timestamp')` on the matched
documents `l`: any permutation of `l` whose timestamps ascend.  MongoDB
guarantees nothing more when sort keys repeat — with no unique tiebreaker
in the query, documents sharing a timestamp may come back in any order,
and differently on different executions. -/
def mongoSortResult (l res : List StoredMessage) : Prop :=
  res.Perm l ∧ res.Pairwise tsLe

/-- The outputs the program may produce for
`getMessagesBetweenUsers(user1Id, user2Id)`: the transforms of some
admissible sort of the `$or`-matched documents. -/
def betweenRead (db : DB) (user1Id user2Id : String)
    (out : List MessageOut) : Prop :=
  ∃ res,
    mongoSortResult (db.messages.filter (directMatch user1Id user2Id)) res ∧
    out = res.map transformMessage

/-- The outputs the program may produce for `getGroupMessages(groupId)`:
the transforms of some admissible sort of the group's documents. -/
def groupRead (db : DB) (groupId : Nat) (out : List MessageOut) : Prop :=
  ∃ res,
    mongoSortResult
      (db.messages.filter (fun m => m.groupId == some groupId)) res ∧
    out = res.map transformMessage

/-- Lowercased character list of a string, for the `'i'` regex option. -/
def lowerChars (s : String) : List Char :=
  s.data.map Char.toLower

/-- Whether `pat` is a leading segment of `text`. -/
def leadSeg : List Char → List Char → Bool
  | [], _ => true
  | _ :: _, [] => false
  | p :: ps, t :: ts => p == t && leadSeg ps ts

/-- Whether `pat` occurs contiguously anywhere inside `text`. -/
def containsSeg : List Char → List Char → Bool
  | [], pat => pat.isEmpty
  | c :: rest, pat => leadSeg pat (c :: rest) || containsSeg rest pat

/-- Embeds the filter `username: { $regex: query, $options: 'i' }` of
`MongoStorage.searchUsers` (storage.ts lines 88-93) for
regex-metacharacter-free query strings: such a pattern matches a username
exactly when the lowercased query occurs as a contiguous substring of the
lowercased username.  In particular the empty query matches every
username, as the empty regex matches every string. -/
def usernameMatches (username query : String) : Bool :=
  containsSeg (lowerChars username) (lowerChars query)

/-- Embeds `MongoStorage.searchUsers` (storage.ts lines 88-93). -/
def searchUsers (db : DB) (query : String) : List UserOut :=
  (db.users.filter (fun u => usernameMatches u.username query)).map
    transformUser

/-- Embeds the `/api/users/search` route handler (registerRoutes): a falsy
(empty) query short-circuits to `[]` without calling the store; otherwise
the store result minus the requester is returned. -/
def apiSearchUsers (db : DB) (requesterId query : String) : List UserOut :=
  if query = "" then []
  else (searchUsers db query).filter (fun u => u.id != requesterId)

/-- Embeds `MongoStorage.deleteUser` (storage.ts lines 95-103):
`Message.deleteMany` with `$or: [{senderId: id}, {recipientId: id}]` —
note this matches every message the user sent, group-addressed ones
included — then `User.findByIdAndDelete`. -/
def deleteUser (db : DB) (id : String) : DB :=
  { db with
    messages := db.messages.filter
      (fun m => !(m.senderId == id || m.recipientId == some id)),
    users := db.users.filter (fun u => !(u.id == id)) }

/-- The single-document update done by `deleteMessage`'s
`message.isDeleted = true; await message.save()`: flag the document whose
`_id` is `mid`, leave every other document alone. -/
def flagDeleted (mid : Nat) (x : StoredMessage) : StoredMessage :=
  if x.id == mid then { x with isDeleted := true } else x

/-- Embeds `MongoStorage.deleteMessage` (storage.ts lines 105-112):
`findById`, throw one `Unauthorized` error if the message is absent or the
requester is not its sender, otherwise set `isDeleted = true` and save
(running the pre-save hook again).  The record is never physically
removed. -/
def deleteMessage (db : DB) (messageId : Nat) (userId : String) :
    Except StorageError DB :=
  match db.messages.find? (fun m => m.id == messageId) with
  | none => .error .unauthorizedMessageDelete
  | some m =>
      if m.senderId ≠ userId then .error .unauthorizedMessageDelete
      else
        match saveValidate { m with isDeleted := true } with
        | .error e => .error e
        | .ok () =>
            .ok { db with
                  messages := db.messages.map (flagDeleted messageId) }

/-- The record-update part of `updateUser`'s `$set` (absent fields are
left as they are). -/
structure UserUpdates where
  username : Option String
  password : Option String
  isOnline : Option Bool
  lastSeen : Option Nat
deriving Repr, DecidableEq

/-- Apply a `$set` patch to one user document. -/
def applyUpdates (u : StoredUser) (up : UserUpdates) : StoredUser :=
  { u with
    username := up.username.getD u.username,
    password := up.password.getD u.password,
    isOnline := up.isOnline.getD u.isOnline,
    lastSeen := up.lastSeen.getD u.lastSeen }

/-- Embeds `MongoStorage.updateUser` (storage.ts lines 114-124):
`findByIdAndUpdate` with `$set`, throwing when the id is absent.  (The
username unique index also applies on update; no claim depends on it and
it is not modelled here.) -/
def updateUser (db : DB) (id : String) (up : UserUpdates) :
    Except StorageError (DB × UserOut) :=
  match db.users.find? (fun u => u.id == id) with
  | none => .error .userNotFound
  | some u =>
      .ok ({ db with
             users := db.users.map
               (fun x => if x.id == id then applyUpdates x up else x) },
           transformUser (applyUpdates u up))

/-- Embeds `MongoStorage.createUser` (storage.ts lines 48-55) together
with the `unique: true` index on `username` (User.ts): a duplicate
username is rejected by the index, otherwise the user is created with
`isOnline = false` and `lastSeen = now`.  `newId` stands for the
Mongo-generated `_id`. -/
def createUser (db : DB) (now : Nat) (newId username password : String) :
    Except StorageError (DB × UserOut) :=
  if db.users.any (fun u => u.username == username) then
    .error .duplicateUsername
  else
    let u : StoredUser :=
      { id := newId, username := username, password := password,
        isOnline := false, lastSeen := now }
    .ok ({ db with users := db.users ++ [u] }, transformUser u)

/-- Embeds `MongoStorage.setUserOnlineStatus` (storage.ts lines 62-67):
`findByIdAndUpdate` of the flag and `lastSeen`; a no-op when the id is
absent. -/
def setUserOnlineStatus (db : DB) (now : Nat) (id : String)
    (isOnline : Bool) : DB :=
  { db with
    users := db.users.map
      (fun u => if u.id == id then
         { u with isOnline := isOnline, lastSeen := now } else u) }

/-- First-occurrence-order duplicate-free insertion, the iteration order
of a JavaScript `Set`. -/
def insertUnique (seen : List String) (x : String) : List String :=
  if seen.contains x then seen else seen ++ [x]

/-- `[...new Set(l)]`: deduplicate keeping first occurrences in order. -/
def setDedup (l : List String) : List String :=
  l.foldl insertUnique []

/-- Embeds `MongoStorage.createGroup` (storage.ts lines 126-133): member
set is `[...new Set([adminId, ...memberIds])]`, the admin implicitly a
member and duplicates dropped. -/
def createGroup (db : DB) (now : Nat) (name adminId : String)
    (memberIds : List String) : DB × GroupOut :=
  let g : StoredGroup :=
    { id := db.nextGroupId, name := name, admin := adminId,
      members := setDedup (adminId :: memberIds), createdAt := now }
  ({ db with groups := db.groups ++ [g],
             nextGroupId := db.nextGroupId + 1 },
   transformGroup g)

/-- Embeds `MongoStorage.getGroup` (storage.ts lines 135-138). -/
def getGroup (db : DB) (id : Nat) : Option GroupOut :=
  (db.groups.find? (fun g => g.id == id)).map transformGroup

/-- Embeds `MongoStorage.getUserGroups` (storage.ts lines 140-143). -/
def getUserGroups (db : DB) (userId : String) : List GroupOut :=
  (db.groups.filter (fun g => g.members.contains userId)).map
    transformGroup

/-- Embeds `MongoStorage.addGroupMembers` (storage.ts lines 145-149):
`findByIdAndUpdate` with `$addToSet: { members: { $each: memberIds } }` —
an order-preserving set union; a silent no-op when the group id is
absent. -/
def addGroupMembers (db : DB) (groupId : Nat) (memberIds : List String) :
    DB :=
  { db with
    groups := db.groups.map
      (fun g => if g.id == groupId then
         { g with members := memberIds.foldl insertUnique g.members }
       else g) }

/-- Embeds `MongoStorage.removeGroupMember` (storage.ts lines 151-155):
`findByIdAndUpdate` with `$pull: { members: memberId }`; a silent no-op
when the group id is absent. -/
def removeGroupMember (db : DB) (groupId : Nat) (memberId : String) : DB :=
  { db with
    groups := db.groups.map
      (fun g => if g.id == groupId then
         { g with members := g.members.filter (fun m => m != memberId) }
       else g) }

/-- Embeds `MongoStorage.deleteGroup` (storage.ts lines 162-169):
`findById`, throw one `Unauthorized` error if the group is absent or the
requester is not its admin; otherwise `Message.deleteMany({ groupId })`
and then `Group.findByIdAndDelete`. -/
def deleteGroup (db : DB) (groupId : Nat) (userId : String) :
    Except StorageError DB :=
  match db.groups.find? (fun g => g.id == groupId) with
  | none => .error .unauthorizedGroupDelete
  | some g =>
      if g.admin ≠ userId then .error .unauthorizedGroupDelete
      else
        .ok { db with
              messages := db.messages.filter
                (fun m => !(m.groupId == some groupId)),
              groups := db.groups.filter (fun x => !(x.id == groupId)) }

/-- One storage operation, for stating state-evolution properties over the
whole interface of `MongoStorage`.  `now` parameters stand for the wall
clock read by `new Date()`; `newId` for a Mongo-generated user id. -/
inductive Op where
  | createUser (now : Nat) (newId username password : String)
  | setUserOnlineStatus (now : Nat) (id : String) (isOnline : Bool)
  | updateUser (id : String) (up : UserUpdates)
  | deleteUser (id : String)
  | createMessage (now : Nat) (d : NewMessage)
  | deleteMessage (messageId : Nat) (userId : String)
  | createGroup (now : Nat) (name adminId : String)
      (memberIds : List String)
  | addGroupMembers (groupId : Nat) (memberIds : List String)
  | removeGroupMember (groupId : Nat) (memberId : String)
  | deleteGroup (groupId : Nat) (userId : String)
deriving Repr, DecidableEq

/-- The state reached by one operation; a thrown error leaves the state
unchanged (the failing operations throw before writing anything). -/
def applyOp (db : DB) : Op → DB
  | .createUser now newId un pw =>
      match createUser db now newId un pw with
      | .ok (db', _) => db'
      | .error _ => db
  | .setUserOnlineStatus now id b => setUserOnlineStatus db now id b
  | .updateUser id up =>
      match updateUser db id up with
      | .ok (db', _) => db'
      | .error _ => db
  | .deleteUser id => deleteUser db id
  | .createMessage now d =>
      match createMessage db now d with
      | .ok (db', _) => db'
      | .error _ => db
  | .deleteMessage mid uid =>
      match deleteMessage db mid uid with
      | .ok db' => db'
      | .error _ => db
  | .createGroup now n a ms => (createGroup db now n a ms).1
  | .addGroupMembers gid ms => addGroupMembers db gid ms
  | .removeGroupMember gid m => removeGroupMember db gid m
  | .deleteGroup gid uid =>
      match deleteGroup db gid uid with
      | .ok db' => db'
      | .error _ => db

/-- Exactly one of the two addressing fields is set. -/
def addrXor (m : StoredMessage) : Bool :=
  m.recipientId.isSome != m.groupId.isSome

/-- The central consistency rule: every stored message is addressed to
exactly one of a direct recipient or a group. -/
def messagesXor (db : DB) : Prop :=
  ∀ m ∈ db.messages, addrXor m = true

instance (db : DB) : Decidable (messagesXor db) :=
  inferInstanceAs (Decidable (∀ m ∈ db.messages, addrXor m = true))

/-! ### Concrete fixtures, used by the witness and counterexample
theorems. -/

/-- Fixture user "Alice". -/
def aliceU : StoredUser := ⟨"u-alice", "Alice", "pw1", false, 0⟩

/-- Fixture user "Bob". -/
def bobU : StoredUser := ⟨"u-bob", "Bob", "pw2", false, 0⟩

/-- Fixture user "alvin". -/
def alvinU : StoredUser := ⟨"u-alvin", "alvin", "pw3", false, 0⟩

/-- A live direct message from Alice to Bob. -/
def mAB : StoredMessage :=
  ⟨0, "u-alice", some "u-bob", none, "hi", none, none, none, 5, false⟩

/-- A live direct message from Bob to Alice, at the same timestamp as
`mAB`. -/
def mBA : StoredMessage :=
  ⟨1, "u-bob", some "u-alice", none, "yo", none, none, none, 5, false⟩

/-- A soft-deleted direct message from Alice to Bob carrying attachment
metadata in its stored record. -/
def mDel : StoredMessage :=
  ⟨2, "u-alice", some "u-bob", none, "secret", some "/uploads/a.png",
   some "a.png", some "image/png", 7, true⟩

/-- A live group message from Alice to group 0. -/
def mG : StoredMessage :=
  ⟨3, "u-alice", none, some 0, "team", none, none, none, 6, false⟩

/-- Fixture group 0, administered by Alice. -/
def gChat : StoredGroup := ⟨0, "G", "u-alice", ["u-alice", "u-bob"], 0⟩

/-- The main fixture state. -/
def exDB : DB := ⟨[aliceU, bobU, alvinU], [mAB, mBA, mDel, mG], [gChat], 4, 1⟩

/-- The fixture message `mAB` after its author deletes it. -/
def mABdel : StoredMessage :=
  ⟨0, "u-alice", some "u-bob", none, "hi", none, none, none, 5, true⟩

/-- The fixture state after Alice deletes message 0. -/
def exDBdel : DB :=
  ⟨[aliceU, bobU, alvinU], [mABdel, mBA, mDel, mG], [gChat], 4, 1⟩

/-- The fixture state after Alice deletes group 0. -/
def exDBnog : DB :=
  ⟨[aliceU, bobU, alvinU], [mAB, mBA, mDel], [], 4, 1⟩

/-- Caller data for a new direct message from Bob to Alice. -/
def dNew : NewMessage :=
  ⟨"u-bob", some "u-alice", none, "new msg", none, none, none⟩

/-- The stored record created from `dNew` at time 9 on `exDB`. -/
def mNew : StoredMessage :=
  ⟨4, "u-bob", some "u-alice", none, "new msg", none, none, none, 9, false⟩

/-- The fixture state after creating `dNew` at time 9. -/
def exDBnew : DB :=
  ⟨[aliceU, bobU, alvinU], [mAB, mBA, mDel, mG, mNew], [gChat], 5, 1⟩

/-- First of three direct messages between Alice and Bob with strictly
increasing timestamps. -/
def mS1 : StoredMessage :=
  ⟨0, "u-alice", some "u-bob", none, "one", none, none, none, 1, false⟩

/-- Second of the strictly-increasing-timestamp fixtures. -/
def mS2 : StoredMessage :=
  ⟨1, "u-bob", some "u-alice", none, "two", none, none, none, 2, false⟩

/-- Third of the strictly-increasing-timestamp fixtures. -/
def mS3 : StoredMessage :=
  ⟨2, "u-alice", some "u-bob", none, "three", none, none, none, 3, false⟩

/-- A fixture conversation with pairwise-distinct timestamps. -/
def exDBseq : DB := ⟨[aliceU, bobU], [mS1, mS2, mS3], [], 3, 0⟩

/-! ### Helper lemmas about the transforms and the sorted read paths. -/

/-- Read-time redaction never changes a message's id. -/
theorem transform_id (m : StoredMessage) :
    (transformMessage m).id = m.id := by
  unfold transformMessage; split <;> rfl

/-- Read-time redaction never changes a message's sender. -/
theorem transform_senderId (m : StoredMessage) :
    (transformMessage m).senderId = m.senderId := by
  unfold transformMessage; split <;> rfl

/-- Read-time redaction never changes a message's direct recipient. -/
theorem transform_recipientId (m : StoredMessage) :
    (transformMessage m).recipientId = m.recipientId := by
  unfold transformMessage; split <;> rfl

/-- Read-time redaction never changes a message's group. -/
theorem transform_groupId (m : StoredMessage) :
    (transformMessage m).groupId = m.groupId := by
  unfold transformMessage; split <;> rfl

/-- Read-time redaction never changes a message's timestamp. -/
theorem transform_timestamp (m : StoredMessage) :
    (transformMessage m).timestamp = m.timestamp := by
  unfold transformMessage; split <;> rfl

/-- Read-time redaction never changes the deletion flag itself. -/
theorem transform_isDeleted (m : StoredMessage) :
    (transformMessage m).isDeleted = m.isDeleted := by
  unfold transformMessage
  split
  · next h => exact h.symm
  · next h => exact (Bool.not_eq_true _).mp h |>.symm

/-- What the direct-conversation read path returns: exactly the transforms
of the stored messages between the two users, in some order. -/
theorem mem_getBetween {db : DB} {a b : String} {out : MessageOut} :
    out ∈ getMessagesBetweenUsers db a b ↔
      ∃ m, m ∈ db.messages ∧ directMatch a b m = true ∧
        out = transformMessage m := by
  unfold getMessagesBetweenUsers
  rw [List.mem_map]
  constructor
  · rintro ⟨m, hm, rfl⟩
    rw [(List.perm_insertionSort tsLe _).mem_iff, List.mem_filter] at hm
    exact ⟨m, hm.1, hm.2, rfl⟩
  · rintro ⟨m, hm, hmatch, rfl⟩
    refine ⟨m, ?_, rfl⟩
    rw [(List.perm_insertionSort tsLe _).mem_iff, List.mem_filter]
    exact ⟨hm, hmatch⟩

/-- What the group read path returns: exactly the transforms of the stored
messages of the group, in some order. -/
theorem mem_getGroup {db : DB} {g : Nat} {out : MessageOut} :
    out ∈ getGroupMessages db g ↔
      ∃ m, m ∈ db.messages ∧ m.groupId = some g ∧
        out = transformMessage m := by
  unfold getGroupMessages
  rw [List.mem_map]
  constructor
  · rintro ⟨m, hm, rfl⟩
    rw [(List.perm_insertionSort tsLe _).mem_iff, List.mem_filter] at hm
    exact ⟨m, hm.1, by simpa using hm.2, rfl⟩
  · rintro ⟨m, hm, hmatch, rfl⟩
    refine ⟨m, ?_, rfl⟩
    rw [(List.perm_insertionSort tsLe _).mem_iff, List.mem_filter]
    exact ⟨hm, by simpa using hmatch⟩

/-- Locating a record by its unique key: when keys are duplicate-free,
`find?` by key returns the member itself. -/
theorem find?_key_of_mem {α β : Type} [DecidableEq β] {key : α → β}
    {l : List α} {a : α} (ha : a ∈ l) (hnd : (l.map key).Nodup) :
    l.find? (fun x => key x == key a) = some a := by
  induction l with
  | nil => cases ha
  | cons b t ih =>
      rw [List.map_cons, List.nodup_cons] at hnd
      rcases List.mem_cons.mp ha with rfl | hat
      · simp [List.find?_cons]
      · have hne : (key b == key a) = false := by
          rw [beq_eq_false_iff_ne]
          intro h
          exact hnd.1 (h ▸ List.mem_map_of_mem key hat)
        rw [List.find?_cons, hne]
        exact ih hat hnd.2

/-! ### Per-operation facts feeding the invariant and frame proofs. -/

/-- The pre-save hook accepts a document exactly when its addressing is
exclusive. -/
theorem saveValidate_ok_iff {m : StoredMessage} :
    saveValidate m = .ok () ↔ addrXor m = true := by
  unfold saveValidate addrXor
  cases hr : m.recipientId.isSome <;> cases hg : m.groupId.isSome <;>
    simp [hr, hg]

/-- User creation writes no message and no group. -/
theorem createUser_frame {db : DB} {now : Nat} {i u p : String} {db' : DB}
    {out : UserOut} (h : createUser db now i u p = .ok (db', out)) :
    db'.messages = db.messages ∧ db'.groups = db.groups := by
  unfold createUser at h
  split at h
  · cases h
  · cases h; exact ⟨rfl, rfl⟩

/-- User update writes no message and no group. -/
theorem updateUser_frame {db : DB} {id : String} {up : UserUpdates}
    {db' : DB} {out : UserOut} (h : updateUser db id up = .ok (db', out)) :
    db'.messages = db.messages ∧ db'.groups = db.groups := by
  unfold updateUser at h
  split at h
  · cases h
  · cases h; exact ⟨rfl, rfl⟩

/-- Everything a successful `createMessage` does: append the validated
fresh document, leave users and groups alone, and return its transform. -/
theorem createMessage_ok {db : DB} {now : Nat} {d : NewMessage} {db' : DB}
    {out : MessageOut} (h : createMessage db now d = .ok (db', out)) :
    db'.messages = db.messages ++ [freshMessage db now d] ∧
    db'.users = db.users ∧ db'.groups = db.groups ∧
    out = transformMessage (freshMessage db now d) ∧
    addrXor (freshMessage db now d) = true := by
  unfold createMessage at h
  split at h
  · cases h
  · next heq =>
      cases h
      exact ⟨rfl, rfl, rfl, rfl, saveValidate_ok_iff.mp heq⟩

/-- A message with neither addressing field is rejected by the hook with
the `must have either` error. -/
theorem createMessage_neither {db : DB} {now : Nat} {d : NewMessage}
    (hr : d.recipientId = none) (hg : d.groupId = none) :
    createMessage db now d = .error .messageNeedsAddress := by
  unfold createMessage saveValidate freshMessage
  simp [hr, hg]

/-- A message with both addressing fields is rejected by the hook with
the `cannot have both` error. -/
theorem createMessage_both {db : DB} {now : Nat} {d : NewMessage}
    {r : String} {g : Nat} (hr : d.recipientId = some r)
    (hg : d.groupId = some g) :
    createMessage db now d = .error .messageBothAddresses := by
  unfold createMessage saveValidate freshMessage
  simp [hr, hg]

/-- Everything a successful `deleteMessage` does: flag the one record by
id, leave users and groups alone; it requires the record to exist with the
requester as sender. -/
theorem deleteMessage_ok {db : DB} {mid : Nat} {uid : String} {db' : DB}
    (h : deleteMessage db mid uid = .ok db') :
    db'.users = db.users ∧ db'.groups = db.groups ∧
    db'.messages = db.messages.map (flagDeleted mid) ∧
    ∃ m, db.messages.find? (fun x => x.id == mid) = some m ∧
      m.senderId = uid ∧ addrXor m = true := by
  unfold deleteMessage at h
  split at h
  · cases h
  · next m heq =>
      split at h
      · cases h
      · next hsender =>
          split at h
          · cases h
          · next hval =>
              cases h
              exact ⟨rfl, rfl, rfl, m, heq, not_ne_iff.mp hsender,
                saveValidate_ok_iff.mp hval⟩

/-- Everything a successful `deleteGroup` does: purge the group's
messages, drop the group record, leave users alone; it requires the group
to exist with the requester as admin. -/
theorem deleteGroup_ok {db : DB} {gid : Nat} {uid : String} {db' : DB}
    (h : deleteGroup db gid uid = .ok db') :
    db'.users = db.users ∧
    db'.messages = db.messages.filter (fun m => !(m.groupId == some gid)) ∧
    db'.groups = db.groups.filter (fun x => !(x.id == gid)) ∧
    ∃ g, db.groups.find? (fun x => x.id == gid) = some g ∧
      g.admin = uid := by
  unfold deleteGroup at h
  split at h
  · cases h
  · next g heq =>
      split at h
      · cases h
      · next hadmin =>
          cases h
          exact ⟨rfl, rfl, rfl, g, heq, not_ne_iff.mp hadmin⟩

/-- Flagging a record as deleted does not touch its addressing fields. -/
theorem addrXor_flagDeleted (mid : Nat) (x : StoredMessage) :
    addrXor (flagDeleted mid x) = addrXor x := by
  unfold flagDeleted; split <;> rfl

/-- The addressing invariant is preserved by every storage operation. -/
theorem applyOp_messagesXor (db : DB) (op : Op) (h : messagesXor db) :
    messagesXor (applyOp db op) := by
  cases op with
  | createUser now i u p =>
      simp only [applyOp]
      split
      · next db' out heq =>
          intro m hm
          rw [(createUser_frame heq).1] at hm
          exact h m hm
      · exact h
  | setUserOnlineStatus now id b => exact fun m hm => h m hm
  | updateUser id up =>
      simp only [applyOp]
      split
      · next db' out heq =>
          intro m hm
          rw [(updateUser_frame heq).1] at hm
          exact h m hm
      · exact h
  | deleteUser id =>
      intro m hm
      exact h m (List.mem_filter.mp hm).1
  | createMessage now d =>
      simp only [applyOp]
      split
      · next db' out heq =>
          intro m hm
          rw [(createMessage_ok heq).1] at hm
          rcases List.mem_append.mp hm with hold | hnew
          · exact h m hold
          · rw [List.mem_singleton.mp hnew]
            exact (createMessage_ok heq).2.2.2.2
      · exact h
  | deleteMessage mid uid =>
      simp only [applyOp]
      split
      · next db' heq =>
          intro m hm
          rw [(deleteMessage_ok heq).2.2.1] at hm
          rcases List.mem_map.mp hm with ⟨x, hx, rfl⟩
          rw [addrXor_flagDeleted]
          exact h x hx
      · exact h
  | createGroup now n a ms => exact fun m hm => h m hm
  | addGroupMembers gid ms => exact fun m hm => h m hm
  | removeGroupMember gid mi => exact fun m hm => h m hm
  | deleteGroup gid uid =>
      simp only [applyOp]
      split
      · next db' heq =>
          intro m hm
          rw [(deleteGroup_ok heq).2.1] at hm
          exact h m (List.mem_filter.mp hm).1
      · exact h

/-- Flagging preserves the id. -/
theorem flagDeleted_id (mid : Nat) (x : StoredMessage) :
    (flagDeleted mid x).id = x.id := by
  unfold flagDeleted; split <;> rfl

/-- Flagging twice is flagging once. -/
theorem flagDeleted_idem (mid : Nat) (x : StoredMessage) :
    flagDeleted mid (flagDeleted mid x) = flagDeleted mid x := by
  cases h : x.id == mid <;> simp [flagDeleted, h]

/-- Finding by id commutes with flagging, since flagging preserves ids. -/
theorem find?_map_flag (l : List StoredMessage) (mid : Nat) :
    (l.map (flagDeleted mid)).find? (fun x => x.id == mid) =
      (l.find? (fun x => x.id == mid)).map (flagDeleted mid) := by
  induction l with
  | nil => rfl
  | cons b t ih =>
      simp only [List.map_cons, List.find?_cons, flagDeleted_id]
      cases h : b.id == mid <;> simp [h, ih]

/-- Conditions under which `deleteMessage` succeeds, and its exact
effect. -/
theorem deleteMessage_eq_ok {db : DB} {mid : Nat} {uid : String}
    {m : StoredMessage}
    (hfind : db.messages.find? (fun x => x.id == mid) = some m)
    (hsender : m.senderId = uid) (hxor : addrXor m = true) :
    deleteMessage db mid uid =
      .ok { db with messages := db.messages.map (flagDeleted mid) } := by
  unfold deleteMessage
  rw [hfind]
  simp only []
  rw [if_neg (by rw [hsender]; exact fun hc => hc rfl)]
  have hval : saveValidate { m with isDeleted := true } = .ok () :=
    saveValidate_ok_iff.mpr hxor
  rw [hval]

/-- A map that rewrites only records failing to exist in the list is the
identity. -/
theorem map_keep_of_pred_false {α : Type} {l : List α} {p : α → Bool}
    {f : α → α} (h : ∀ a ∈ l, p a = false) :
    (l.map fun a => if p a then f a else a) = l := by
  induction l with
  | nil => rfl
  | cons b t ih =>
      have hb := h b (List.mem_cons_self b t)
      rw [List.map_cons, ih fun a ha => h a (List.mem_cons_of_mem b ha)]
      simp [hb]

/-! ### The claims. -/

/-- C1: for every message accepted by `createMessage`, exactly one of
`recipientId` and `groupId` is set, both at creation and after every later
storage operation (the pre-save hook enforces it at creation, and no
operation ever edits the addressing fields of a stored message); a
`createMessage` call with both set or with neither set fails with the
pre-save hook's addressing error and stores nothing. -/
theorem claim1 :
    (∀ (db : DB) (now : Nat) (d : NewMessage) (db' : DB) (out : MessageOut),
       createMessage db now d = .ok (db', out) →
       addrXor (freshMessage db now d) = true ∧
       (messagesXor db → messagesXor db')) ∧
    (∀ (db : DB) (op : Op), messagesXor db → messagesXor (applyOp db op)) ∧
    (∀ (db : DB) (now : Nat) (d : NewMessage),
       d.recipientId = none → d.groupId = none →
       createMessage db now d = .error .messageNeedsAddress ∧
       applyOp db (.createMessage now d) = db) ∧
    (∀ (db : DB) (now : Nat) (d : NewMessage) (r : String) (g : Nat),
       d.recipientId = some r → d.groupId = some g →
       createMessage db now d = .error .messageBothAddresses ∧
       applyOp db (.createMessage now d) = db) := by
  refine ⟨?_, applyOp_messagesXor, ?_, ?_⟩
  · intro db now d db' out h
    obtain ⟨hmsgs, _, _, _, hxor⟩ := createMessage_ok h
    refine ⟨hxor, fun hinv m hm => ?_⟩
    rw [hmsgs] at hm
    rcases List.mem_append.mp hm with h1 | h2
    · exact hinv m h1
    · rw [List.mem_singleton.mp h2]
      exact hxor
  · intro db now d hr hg
    have herr := @createMessage_neither db now d hr hg
    refine ⟨herr, ?_⟩
    simp only [applyOp, herr]
  · intro db now d r g hr hg
    have herr := @createMessage_both db now d r g hr hg
    refine ⟨herr, ?_⟩
    simp only [applyOp, herr]

/-- Closed instance of `claim1`: a doubly-addressed and an unaddressed
creation both fail on the fixture state, and the invariant survives a
concrete deletion. -/
theorem claim1_witness :
    createMessage exDB 9 ⟨"u-alice", none, none, "x", none, none, none⟩ =
      .error .messageNeedsAddress ∧
    createMessage exDB 9
        ⟨"u-alice", some "u-bob", some 0, "x", none, none, none⟩ =
      .error .messageBothAddresses ∧
    messagesXor (applyOp exDB (.deleteMessage 0 "u-alice")) :=
  ⟨(claim1.2.2.1 exDB 9 ⟨"u-alice", none, none, "x", none, none, none⟩
      rfl rfl).1,
   (claim1.2.2.2 exDB 9
      ⟨"u-alice", some "u-bob", some 0, "x", none, none, none⟩ "u-bob" 0
      rfl rfl).1,
   claim1.2.1 exDB (.deleteMessage 0 "u-alice") (by decide)⟩

/-- C8: deleting an already-deleted message again, by the same author, is
an error-free no-op: the second call returns successfully and leaves the
state exactly as after the first call, with the record still flagged
`isDeleted = true`. -/
theorem claim8 (db : DB) (mid : Nat) (uid : String) (db₁ : DB)
    (h : deleteMessage db mid uid = .ok db₁) :
    deleteMessage db₁ mid uid = .ok db₁ ∧
    applyOp (applyOp db (.deleteMessage mid uid)) (.deleteMessage mid uid) =
      applyOp db (.deleteMessage mid uid) ∧
    ∀ x ∈ db₁.messages, x.id = mid → x.isDeleted = true := by
  obtain ⟨hu, hg, hmsgs, m, hfind, hsender, hxor⟩ := deleteMessage_ok h
  have hmid : (m.id == mid) = true := by
    have hx := List.find?_some hfind
    exact hx
  have hfind₁ : db₁.messages.find? (fun x => x.id == mid) =
      some { m with isDeleted := true } := by
    rw [hmsgs, find?_map_flag, hfind]
    simp only [Option.map_some']
    unfold flagDeleted
    rw [hmid]
    simp
  have step := deleteMessage_eq_ok (m := { m with isDeleted := true })
    hfind₁ hsender hxor
  have hmapeq : db₁.messages.map (flagDeleted mid) = db₁.messages := by
    rw [hmsgs, List.map_map]
    have hcomp : flagDeleted mid ∘ flagDeleted mid = flagDeleted mid :=
      funext fun x => flagDeleted_idem mid x
    rw [hcomp]
  have hsecond : deleteMessage db₁ mid uid = .ok db₁ := by
    rw [step, hmapeq]
  refine ⟨hsecond, ?_, ?_⟩
  · simp only [applyOp, h, hsecond]
  · intro x hx hxid
    rw [hmsgs] at hx
    rcases List.mem_map.mp hx with ⟨y, hy, rfl⟩
    unfold flagDeleted
    unfold flagDeleted at hxid
    by_cases hc : (y.id == mid) = true
    · simp [hc]
    · rw [if_neg hc] at hxid ⊢
      exact absurd (beq_iff_eq.mpr hxid) hc

/-- Closed instance of `claim8`: re-deleting the first fixture message. -/
theorem claim8_witness :
    deleteMessage exDBdel 0 "u-alice" = .ok exDBdel :=
  (claim8 exDB 0 "u-alice" exDBdel rfl).1

/-- C10: membership changes aimed at a nonexistent group are silent
no-ops — they raise nothing and leave the whole state (groups, users and
messages alike) unchanged. -/
theorem claim10 (db : DB) (gid : Nat) (ms : List String) (mid : String)
    (habs : ∀ g ∈ db.groups, g.id ≠ gid) :
    addGroupMembers db gid ms = db ∧ removeGroupMember db gid mid = db ∧
    applyOp db (.addGroupMembers gid ms) = db ∧
    applyOp db (.removeGroupMember gid mid) = db := by
  have hfalse : ∀ g ∈ db.groups, (g.id == gid) = false := fun g hg =>
    beq_eq_false_iff_ne.mpr (habs g hg)
  have h1 : addGroupMembers db gid ms = db := by
    unfold addGroupMembers
    rw [map_keep_of_pred_false hfalse]
  have h2 : removeGroupMember db gid mid = db := by
    unfold removeGroupMember
    rw [map_keep_of_pred_false hfalse]
  exact ⟨h1, h2, h1, h2⟩

/-- Closed instance of `claim10`: no fixture group has id 99. -/
theorem claim10_witness :
    addGroupMembers exDB 99 ["u-alvin"] = exDB ∧
    removeGroupMember exDB 99 "u-bob" = exDB :=
  ⟨(claim10 exDB 99 ["u-alvin"] "u-bob" (by decide)).1,
   (claim10 exDB 99 ["u-alvin"] "u-bob" (by decide)).2.1⟩

/-- The redacted fields of a deleted message's read-time representation. -/
theorem transform_deleted {m : StoredMessage} (h : m.isDeleted = true) :
    (transformMessage m).content = "This message was deleted" ∧
    (transformMessage m).fileUrl = none ∧
    (transformMessage m).fileName = none ∧
    (transformMessage m).fileType = none := by
  unfold transformMessage
  rw [h]
  simp

/-- A live message's read-time representation carries its stored content
and attachment fields verbatim. -/
theorem transform_live {m : StoredMessage} (h : m.isDeleted = false) :
    (transformMessage m).content = m.content ∧
    (transformMessage m).fileUrl = m.fileUrl ∧
    (transformMessage m).fileName = m.fileName ∧
    (transformMessage m).fileType = m.fileType := by
  unfold transformMessage
  rw [h]
  simp

/-- C2: on both read paths, every returned item is the transform of a
stored record, and whenever that record is soft-deleted the returned item
shows the fixed placeholder content, null attachment fields, and the
stored id, sender, addressing and timestamp unchanged; conversely every
stored deleted record matching the query is returned (in redacted form).
-/
theorem claim2 (db : DB) :
    (∀ (a b : String) (out : MessageOut),
       out ∈ getMessagesBetweenUsers db a b →
       ∃ m, m ∈ db.messages ∧ out = transformMessage m ∧
         (m.isDeleted = true →
           out.content = "This message was deleted" ∧
           out.fileUrl = none ∧ out.fileName = none ∧ out.fileType = none ∧
           out.id = m.id ∧ out.senderId = m.senderId ∧
           out.recipientId = m.recipientId ∧ out.groupId = m.groupId ∧
           out.timestamp = m.timestamp)) ∧
    (∀ (g : Nat) (out : MessageOut),
       out ∈ getGroupMessages db g →
       ∃ m, m ∈ db.messages ∧ out = transformMessage m ∧
         (m.isDeleted = true →
           out.content = "This message was deleted" ∧
           out.fileUrl = none ∧ out.fileName = none ∧ out.fileType = none ∧
           out.id = m.id ∧ out.senderId = m.senderId ∧
           out.recipientId = m.recipientId ∧ out.groupId = m.groupId ∧
           out.timestamp = m.timestamp)) ∧
    (∀ (m : StoredMessage) (a b : String),
       m ∈ db.messages → directMatch a b m = true →
       transformMessage m ∈ getMessagesBetweenUsers db a b) ∧
    (∀ (m : StoredMessage) (g : Nat),
       m ∈ db.messages → m.groupId = some g →
       transformMessage m ∈ getGroupMessages db g) := by
  have hfields : ∀ m : StoredMessage, m.isDeleted = true →
      (transformMessage m).content = "This message was deleted" ∧
      (transformMessage m).fileUrl = none ∧
      (transformMessage m).fileName = none ∧
      (transformMessage m).fileType = none ∧
      (transformMessage m).id = m.id ∧
      (transformMessage m).senderId = m.senderId ∧
      (transformMessage m).recipientId = m.recipientId ∧
      (transformMessage m).groupId = m.groupId ∧
      (transformMessage m).timestamp = m.timestamp := by
    intro m hdel
    obtain ⟨h1, h2, h3, h4⟩ := transform_deleted hdel
    exact ⟨h1, h2, h3, h4, transform_id m, transform_senderId m,
      transform_recipientId m, transform_groupId m, transform_timestamp m⟩
  refine ⟨?_, ?_, ?_, ?_⟩
  · intro a b out hout
    obtain ⟨m, hm, hmatch, rfl⟩ := mem_getBetween.mp hout
    exact ⟨m, hm, rfl, hfields m⟩
  · intro g out hout
    obtain ⟨m, hm, hmatch, rfl⟩ := mem_getGroup.mp hout
    exact ⟨m, hm, rfl, hfields m⟩
  · intro m a b hm hmatch
    exact mem_getBetween.mpr ⟨m, hm, hmatch, rfl⟩
  · intro m g hm hg
    exact mem_getGroup.mpr ⟨m, hm, hg, rfl⟩

/-- Closed instance of `claim2`: the deleted fixture message is returned
redacted by the direct read path. -/
theorem claim2_witness :
    ∃ m, m ∈ exDB.messages ∧ transformMessage mDel = transformMessage m ∧
      (m.isDeleted = true →
        (transformMessage mDel).content = "This message was deleted" ∧
        (transformMessage mDel).fileUrl = none ∧
        (transformMessage mDel).fileName = none ∧
        (transformMessage mDel).fileType = none ∧
        (transformMessage mDel).id = m.id ∧
        (transformMessage mDel).senderId = m.senderId ∧
        (transformMessage mDel).recipientId = m.recipientId ∧
        (transformMessage mDel).groupId = m.groupId ∧
        (transformMessage mDel).timestamp = m.timestamp) :=
  (claim2 exDB).1 "u-alice" "u-bob" (transformMessage mDel) (by decide)

/-- A timestamp-sorted permutation is unique when no timestamp repeats:
with duplicate sort keys absent, any two sorted rearrangements of the
same documents coincide. -/
theorem sorted_perm_unique :
    ∀ l₁ l₂ : List StoredMessage, l₁.Perm l₂ → l₁.Pairwise tsLe →
      l₂.Pairwise tsLe → (l₁.map StoredMessage.timestamp).Nodup →
      l₁ = l₂ := by
  intro l₁
  induction l₁ with
  | nil =>
      intro l₂ hp _ _ _
      exact (hp.symm.eq_nil).symm
  | cons a t ih =>
      intro l₂ hp hs₁ hs₂ hnd
      cases l₂ with
      | nil => exact absurd hp.eq_nil (by simp)
      | cons b t₂ =>
          rw [List.map_cons, List.nodup_cons] at hnd
          have hbmem : b ∈ a :: t := hp.mem_iff.mpr (List.mem_cons_self b t₂)
          have hamem : a ∈ b :: t₂ := hp.mem_iff.mp (List.mem_cons_self a t)
          have hab : a = b := by
            rcases List.mem_cons.mp hbmem with hh | hbt
            · exact hh.symm
            · rcases List.mem_cons.mp hamem with hh | hat₂
              · exact hh
              · have h1 : tsLe a b := (List.pairwise_cons.mp hs₁).1 b hbt
                have h2 : tsLe b a := (List.pairwise_cons.mp hs₂).1 a hat₂
                have hts : a.timestamp = b.timestamp :=
                  Nat.le_antisymm h1 h2
                have hmem2 : a.timestamp ∈ t.map StoredMessage.timestamp := by
                  rw [hts]
                  exact List.mem_map_of_mem _ hbt
                exact (hnd.1 hmem2).elim
          subst hab
          rw [ih t₂ hp.cons_inv (List.pairwise_cons.mp hs₁).2
            (List.pairwise_cons.mp hs₂).2 hnd.2]

/-- The deterministic direct read path returns one admissible result of
the underspecified Mongo sort. -/
theorem getBetween_admissible (db : DB) (a b : String) :
    betweenRead db a b (getMessagesBetweenUsers db a b) :=
  ⟨_, ⟨List.perm_insertionSort tsLe _, List.sorted_insertionSort tsLe _⟩,
   rfl⟩

/-- The deterministic group read path returns one admissible result of
the underspecified Mongo sort. -/
theorem getGroup_admissible (db : DB) (g : Nat) :
    groupRead db g (getGroupMessages db g) :=
  ⟨_, ⟨List.perm_insertionSort tsLe _, List.sorted_insertionSort tsLe _⟩,
   rfl⟩

/-- C3 counterexample: `mAB` and `mBA` share timestamp 5 in the
Alice-Bob conversation, and `.sort('timestamp')` is given no tiebreaker,
so both the insertion order and the swapped order are admissible results
of `getMessagesBetweenUsers` — the program guarantees neither that ties
come back in insertion order nor that two successive reads agree. -/
theorem claim3_counterexample :
    mAB.timestamp = mBA.timestamp ∧
    betweenRead exDB "u-alice" "u-bob"
      [transformMessage mAB, transformMessage mBA, transformMessage mDel] ∧
    betweenRead exDB "u-alice" "u-bob"
      [transformMessage mBA, transformMessage mAB, transformMessage mDel] ∧
    [transformMessage mBA, transformMessage mAB, transformMessage mDel] ≠
      [transformMessage mAB, transformMessage mBA, transformMessage mDel] :=
  ⟨rfl,
   ⟨[mAB, mBA, mDel], ⟨by decide, by decide⟩, rfl⟩,
   ⟨[mBA, mAB, mDel], ⟨by decide, by decide⟩, rfl⟩,
   by decide⟩

/-- C3 (amended): every result the program may return for
`getMessagesBetweenUsers(A, B)` consists of exactly the messages with
`(sender=A, recipient=B)` or `(sender=B, recipient=A)`, ordered ascending
by timestamp, and likewise `getGroupMessages` for its group; but the
relative order of messages with equal timestamps is not guaranteed — any
timestamp-sorted permutation is admissible, so ties may differ between
reads.  When the conversation's timestamps are pairwise distinct the
result is uniquely determined, and hence identical on every subsequent
read. -/
theorem claim3 :
    (∀ (db : DB) (a b : String) (out : List MessageOut),
       betweenRead db a b out →
       (∀ o, o ∈ out ↔ ∃ m, m ∈ db.messages ∧ directMatch a b m = true ∧
          o = transformMessage m) ∧
       out.Pairwise (fun x y => x.timestamp ≤ y.timestamp)) ∧
    (∀ (db : DB) (a b : String) (out₁ out₂ : List MessageOut),
       betweenRead db a b out₁ → betweenRead db a b out₂ →
       ((db.messages.filter (directMatch a b)).map
         StoredMessage.timestamp).Nodup →
       out₁ = out₂) ∧
    (∀ (db : DB) (g : Nat) (out : List MessageOut),
       groupRead db g out →
       (∀ o, o ∈ out ↔ ∃ m, m ∈ db.messages ∧ m.groupId = some g ∧
          o = transformMessage m) ∧
       out.Pairwise (fun x y => x.timestamp ≤ y.timestamp)) ∧
    (∀ (db : DB) (g : Nat) (out₁ out₂ : List MessageOut),
       groupRead db g out₁ → groupRead db g out₂ →
       ((db.messages.filter (fun m => m.groupId == some g)).map
         StoredMessage.timestamp).Nodup →
       out₁ = out₂) := by
  have hmemsort : ∀ (p : StoredMessage → Bool) (msgs : List StoredMessage)
      (out : List MessageOut),
      (∃ res, mongoSortResult (msgs.filter p) res ∧
        out = res.map transformMessage) →
      (∀ o, o ∈ out ↔ ∃ m, m ∈ msgs ∧ p m = true ∧
         o = transformMessage m) ∧
      out.Pairwise (fun x y => x.timestamp ≤ y.timestamp) := by
    rintro p msgs out ⟨res, ⟨hperm, hsort⟩, rfl⟩
    constructor
    · intro o
      rw [List.mem_map]
      constructor
      · rintro ⟨m, hm, rfl⟩
        have hm2 := List.mem_filter.mp (hperm.subset hm)
        exact ⟨m, hm2.1, hm2.2, rfl⟩
      · rintro ⟨m, hm, hmatch, rfl⟩
        exact ⟨m, hperm.mem_iff.mpr (List.mem_filter.mpr ⟨hm, hmatch⟩), rfl⟩
    · refine List.Pairwise.map transformMessage ?_ hsort
      intro x y hxy
      rw [transform_timestamp, transform_timestamp]
      exact hxy
  have huniq : ∀ (flt : List StoredMessage) (out₁ out₂ : List MessageOut),
      (∃ res, mongoSortResult flt res ∧ out₁ = res.map transformMessage) →
      (∃ res, mongoSortResult flt res ∧ out₂ = res.map transformMessage) →
      (flt.map StoredMessage.timestamp).Nodup → out₁ = out₂ := by
    rintro flt out₁ out₂ ⟨r₁, ⟨hp₁, hs₁⟩, rfl⟩ ⟨r₂, ⟨hp₂, hs₂⟩, rfl⟩ hnd
    have hperm : r₁.Perm r₂ := hp₁.trans hp₂.symm
    have hnd₁ : (r₁.map StoredMessage.timestamp).Nodup :=
      ((hp₁.map StoredMessage.timestamp).nodup_iff).mpr hnd
    rw [sorted_perm_unique r₁ r₂ hperm hs₁ hs₂ hnd₁]
  refine ⟨?_, ?_, ?_, ?_⟩
  · intro db a b out h
    exact hmemsort (directMatch a b) db.messages out h
  · intro db a b out₁ out₂ h₁ h₂ hnd
    exact huniq _ out₁ out₂ h₁ h₂ hnd
  · intro db g out h
    have hg := hmemsort (fun m => m.groupId == some g) db.messages out h
    refine ⟨fun o => ?_, hg.2⟩
    rw [hg.1 o]
    constructor
    · rintro ⟨m, hm, hmatch, rfl⟩
      exact ⟨m, hm, by simpa using hmatch, rfl⟩
    · rintro ⟨m, hm, hmatch, rfl⟩
      exact ⟨m, hm, by simpa using hmatch, rfl⟩
  · intro db g out₁ out₂ h₁ h₂ hnd
    exact huniq _ out₁ out₂ h₁ h₂ hnd

/-- Closed instance of `claim3`: an admissible read of the Alice-Bob
conversation is timestamp-sorted, and on the distinct-timestamp fixture
conversation any two admissible reads coincide. -/
theorem claim3_witness :
    ([transformMessage mAB, transformMessage mBA,
      transformMessage mDel]).Pairwise
      (fun x y => x.timestamp ≤ y.timestamp) ∧
    [transformMessage mS1, transformMessage mS2, transformMessage mS3] =
      [transformMessage mS1, transformMessage mS2, transformMessage mS3] :=
  ⟨(claim3.1 exDB "u-alice" "u-bob"
      [transformMessage mAB, transformMessage mBA, transformMessage mDel]
      ⟨[mAB, mBA, mDel], ⟨by decide, by decide⟩, rfl⟩).2,
   claim3.2.1 exDBseq "u-alice" "u-bob"
      [transformMessage mS1, transformMessage mS2, transformMessage mS3]
      [transformMessage mS1, transformMessage mS2, transformMessage mS3]
      ⟨[mS1, mS2, mS3], ⟨by decide, by decide⟩, rfl⟩
      ⟨[mS1, mS2, mS3], ⟨by decide, by decide⟩, rfl⟩
      (by decide)⟩

/-- C4: `deleteGroup` by anyone but the group's admin fails with the
`Unauthorized` error and changes nothing; a successful deletion (which
requires the requester to be the admin, and always succeeds for the
admin) removes every message of the group and the group record itself, so
the group's read path is empty afterwards and no stored message still
references the group, while messages of other conversations and all users
survive. -/
theorem claim4 :
    (∀ (db : DB) (gid : Nat) (uid : String) (g : StoredGroup),
       g ∈ db.groups → g.id = gid → g.admin ≠ uid →
       (db.groups.map StoredGroup.id).Nodup →
       deleteGroup db gid uid = .error .unauthorizedGroupDelete ∧
       applyOp db (.deleteGroup gid uid) = db) ∧
    (∀ (db : DB) (gid : Nat) (uid : String) (db' : DB),
       deleteGroup db gid uid = .ok db' →
       getGroupMessages db' gid = [] ∧
       (∀ m ∈ db'.messages, m.groupId ≠ some gid) ∧
       (∀ g ∈ db'.groups, g.id ≠ gid) ∧
       db'.users = db.users ∧
       (∀ m ∈ db.messages, m.groupId ≠ some gid → m ∈ db'.messages) ∧
       ∃ g, g ∈ db.groups ∧ g.id = gid ∧ g.admin = uid) ∧
    (∀ (db : DB) (gid : Nat) (uid : String) (g : StoredGroup),
       g ∈ db.groups → g.id = gid → g.admin = uid →
       (db.groups.map StoredGroup.id).Nodup →
       ∃ db', deleteGroup db gid uid = .ok db') := by
  refine ⟨?_, ?_, ?_⟩
  · intro db gid uid g hg hid hadmin hnd
    have hfind : db.groups.find? (fun x => x.id == gid) = some g := by
      subst hid
      exact find?_key_of_mem hg hnd
    have herr : deleteGroup db gid uid = .error .unauthorizedGroupDelete := by
      unfold deleteGroup
      rw [hfind]
      simp only []
      rw [if_pos hadmin]
    refine ⟨herr, ?_⟩
    simp only [applyOp, herr]
  · intro db gid uid db' h
    obtain ⟨husers, hmsgs, hgroups, g, hfind, hadmin⟩ := deleteGroup_ok h
    have hmemg : g ∈ db.groups := List.mem_of_find?_eq_some hfind
    have hidg : g.id = gid := by
      have hx := List.find?_some hfind
      exact beq_iff_eq.mp hx
    have hnomsg : ∀ m ∈ db'.messages, m.groupId ≠ some gid := by
      intro m hm
      rw [hmsgs] at hm
      have hp := (List.mem_filter.mp hm).2
      simpa using hp
    refine ⟨?_, hnomsg, ?_, husers, ?_, g, hmemg, hidg, hadmin⟩
    · unfold getGroupMessages
      have hempty : db'.messages.filter (fun m => m.groupId == some gid) =
          [] := by
        rw [List.filter_eq_nil_iff]
        intro m hm
        have := hnomsg m hm
        simpa using this
      rw [hempty]
      rfl
    · intro g' hg'
      rw [hgroups] at hg'
      have hp := (List.mem_filter.mp hg').2
      simpa using hp
    · intro m hm hng
      rw [hmsgs]
      refine List.mem_filter.mpr ⟨hm, ?_⟩
      simpa using hng
  · intro db gid uid g hg hid hadmin hnd
    have hfind : db.groups.find? (fun x => x.id == gid) = some g := by
      subst hid
      exact find?_key_of_mem hg hnd
    refine ⟨{ db with
        messages := db.messages.filter (fun m => !(m.groupId == some gid)),
        groups := db.groups.filter (fun x => !(x.id == gid)) }, ?_⟩
    unfold deleteGroup
    rw [hfind]
    simp only []
    rw [if_neg (by rw [hadmin]; exact fun hc => hc rfl)]

/-- Closed instance of `claim4`: Bob cannot delete Alice's group, and
Alice's deletion of group 0 leaves its read path empty. -/
theorem claim4_witness :
    deleteGroup exDB 0 "u-bob" = .error .unauthorizedGroupDelete ∧
    getGroupMessages exDBnog 0 = [] :=
  ⟨(claim4.1 exDB 0 "u-bob" gChat (by decide) rfl (by decide) (by decide)).1,
   (claim4.2.1 exDB 0 "u-alice" exDBnog rfl).1⟩

/-- C5 counterexample: the code throws the one `Unauthorized to delete
this message` error for an absent message id (99 names no stored message)
exactly as it does for a live message whose sender is not the requester —
there is no distinct `NotFound` outcome, contrary to the claim. -/
theorem claim5_counterexample :
    (∀ m ∈ exDB.messages, m.id ≠ 99) ∧
    deleteMessage exDB 99 "u-bob" = .error .unauthorizedMessageDelete ∧
    mAB.senderId ≠ "u-bob" ∧
    deleteMessage exDB 0 "u-bob" = .error .unauthorizedMessageDelete ∧
    errorText .unauthorizedMessageDelete =
      "Unauthorized to delete this message" :=
  ⟨by decide, rfl, by decide, rfl, rfl⟩

/-- C5 (amended): `deleteMessage` fails with the one `Unauthorized` error
both when no stored message has the requested id and when the requester is
not the message's sender (regardless of conversation type), leaving every
stored record unchanged; on success it only flips the record's
`isDeleted` flag to true, physically removing nothing. -/
theorem claim5 :
    (∀ (db : DB) (mid : Nat) (uid : String),
       (∀ m ∈ db.messages, m.id ≠ mid) →
       deleteMessage db mid uid = .error .unauthorizedMessageDelete ∧
       applyOp db (.deleteMessage mid uid) = db) ∧
    (∀ (db : DB) (mid : Nat) (uid : String) (m : StoredMessage),
       m ∈ db.messages → m.id = mid → m.senderId ≠ uid →
       (db.messages.map StoredMessage.id).Nodup →
       deleteMessage db mid uid = .error .unauthorizedMessageDelete ∧
       applyOp db (.deleteMessage mid uid) = db) ∧
    (∀ (db : DB) (mid : Nat) (uid : String) (db' : DB),
       deleteMessage db mid uid = .ok db' →
       db'.users = db.users ∧ db'.groups = db.groups ∧
       db'.messages.length = db.messages.length ∧
       (∀ x ∈ db.messages, x.id ≠ mid → x ∈ db'.messages) ∧
       (∀ x ∈ db.messages, x.id = mid →
          { x with isDeleted := true } ∈ db'.messages) ∧
       ∃ m, m ∈ db.messages ∧ m.id = mid ∧ m.senderId = uid) := by
  refine ⟨?_, ?_, ?_⟩
  · intro db mid uid habs
    have hnone : db.messages.find? (fun x => x.id == mid) = none := by
      rw [List.find?_eq_none]
      intro m hm
      simpa using habs m hm
    have herr : deleteMessage db mid uid =
        .error .unauthorizedMessageDelete := by
      unfold deleteMessage
      rw [hnone]
    refine ⟨herr, ?_⟩
    simp only [applyOp, herr]
  · intro db mid uid m hm hid hsender hnd
    have hfind : db.messages.find? (fun x => x.id == mid) = some m := by
      subst hid
      exact find?_key_of_mem hm hnd
    have herr : deleteMessage db mid uid =
        .error .unauthorizedMessageDelete := by
      unfold deleteMessage
      rw [hfind]
      simp only []
      rw [if_pos hsender]
    refine ⟨herr, ?_⟩
    simp only [applyOp, herr]
  · intro db mid uid db' h
    obtain ⟨husers, hgroups, hmsgs, m, hfind, hsender, _⟩ :=
      deleteMessage_ok h
    have hmemm : m ∈ db.messages := List.mem_of_find?_eq_some hfind
    have hidm : m.id = mid := by
      have hx := List.find?_some hfind
      exact beq_iff_eq.mp hx
    refine ⟨husers, hgroups, ?_, ?_, ?_, m, hmemm, hidm, hsender⟩
    · rw [hmsgs, List.length_map]
    · intro x hx hne
      have hkeep : flagDeleted mid x = x := by
        simp [flagDeleted, beq_eq_false_iff_ne.mpr hne]
      have hmem2 := List.mem_map_of_mem (flagDeleted mid) hx
      rw [hkeep] at hmem2
      rw [hmsgs]
      exact hmem2
    · intro x hx hxid
      have hflag : flagDeleted mid x = { x with isDeleted := true } := by
        simp [flagDeleted, hxid]
      have hmem2 := List.mem_map_of_mem (flagDeleted mid) hx
      rw [hflag] at hmem2
      rw [hmsgs]
      exact hmem2

/-- Closed instance of `claim5`: both failure modes on the fixtures, and
the effect of Alice's successful delete of message 0. -/
theorem claim5_witness :
    deleteMessage exDB 99 "u-bob" = .error .unauthorizedMessageDelete ∧
    deleteMessage exDB 0 "u-bob" = .error .unauthorizedMessageDelete ∧
    exDBdel.messages.length = exDB.messages.length :=
  ⟨(claim5.1 exDB 99 "u-bob" (by decide)).1,
   (claim5.2.1 exDB 0 "u-bob" mAB (by decide) rfl (by decide) (by decide)).1,
   (claim5.2.2 exDB 0 "u-alice" exDBdel rfl).2.2.1⟩

/-- C6 counterexample: the fixture group message `mG` was sent by Alice
to group 0, and `deleteUser` of Alice removes it — `deleteMany` matches on
`senderId` alone with no addressing restriction — contradicting the
claim that group-addressed messages the user sent are left unchanged. -/
theorem claim6_counterexample :
    mG ∈ exDB.messages ∧ mG.senderId = "u-alice" ∧ mG.groupId = some 0 ∧
    mG.recipientId = none ∧
    mG ∉ (deleteUser exDB "u-alice").messages :=
  ⟨by decide, rfl, rfl, rfl, by decide⟩

/-- C6 (amended): `deleteUser(id)` removes the user record and every
message in which the user is the sender — group-addressed messages the
user sent included — or the direct recipient; it leaves all group records
(hence all memberships) unchanged, and keeps every message sent by
someone else that the user did not directly receive. -/
theorem claim6 (db : DB) (uid : String) :
    (∀ u : StoredUser,
       u ∈ (deleteUser db uid).users ↔ u ∈ db.users ∧ u.id ≠ uid) ∧
    (∀ m : StoredMessage,
       m ∈ (deleteUser db uid).messages ↔
         m ∈ db.messages ∧ m.senderId ≠ uid ∧ m.recipientId ≠ some uid) ∧
    (deleteUser db uid).groups = db.groups := by
  refine ⟨fun u => ?_, fun m => ?_, rfl⟩
  · simp [deleteUser, List.mem_filter]
  · simp [deleteUser, List.mem_filter, not_or, and_assoc]

/-- The operations that can remove or tombstone a given stored message: a
`deleteMessage` aimed at its id, a `deleteUser` of its sender or direct
recipient, or a `deleteGroup` of its group.  Every other operation leaves
the stored record untouched. -/
def opDeletes (m : StoredMessage) : Op → Prop
  | .deleteMessage mid _ => mid = m.id
  | .deleteUser uid => m.senderId = uid ∨ m.recipientId = some uid
  | .deleteGroup gid _ => m.groupId = some gid
  | _ => False

/-- C7: immediately after a successful `createMessage`, the matching read
path (direct or group) includes the returned message, whose content,
attachment fields, `isDeleted = false` flag and creation timestamp are
exactly as supplied; and a stored message survives, unchanged, every
operation other than one that deletes it (its author's `deleteMessage`, a
`deleteUser` of a participant, or a `deleteGroup` of its group), each
live stored message always appearing on its read path with its stored
content and attachment fields. -/
theorem claim7 :
    (∀ (db : DB) (now : Nat) (d : NewMessage) (db' : DB)
       (out : MessageOut) (r : String),
       createMessage db now d = .ok (db', out) → d.recipientId = some r →
       out ∈ getMessagesBetweenUsers db' d.senderId r ∧
       out.content = d.content ∧ out.fileUrl = d.fileUrl ∧
       out.fileName = d.fileName ∧ out.fileType = d.fileType ∧
       out.isDeleted = false ∧ out.timestamp = now) ∧
    (∀ (db : DB) (now : Nat) (d : NewMessage) (db' : DB)
       (out : MessageOut) (g : Nat),
       createMessage db now d = .ok (db', out) → d.groupId = some g →
       out ∈ getGroupMessages db' g ∧
       out.content = d.content ∧ out.fileUrl = d.fileUrl ∧
       out.fileName = d.fileName ∧ out.fileType = d.fileType ∧
       out.isDeleted = false ∧ out.timestamp = now) ∧
    (∀ (db : DB) (op : Op) (m : StoredMessage),
       m ∈ db.messages → ¬ opDeletes m op →
       m ∈ (applyOp db op).messages) ∧
    (∀ (db : DB) (m : StoredMessage) (r : String),
       m ∈ db.messages → m.recipientId = some r →
       transformMessage m ∈ getMessagesBetweenUsers db m.senderId r) ∧
    (∀ (db : DB) (m : StoredMessage) (g : Nat),
       m ∈ db.messages → m.groupId = some g →
       transformMessage m ∈ getGroupMessages db g) ∧
    (∀ m : StoredMessage, m.isDeleted = false →
       (transformMessage m).content = m.content ∧
       (transformMessage m).fileUrl = m.fileUrl ∧
       (transformMessage m).fileName = m.fileName ∧
       (transformMessage m).fileType = m.fileType) := by
  have hfreshfields : ∀ (db : DB) (now : Nat) (d : NewMessage),
      (transformMessage (freshMessage db now d)).content = d.content ∧
      (transformMessage (freshMessage db now d)).fileUrl = d.fileUrl ∧
      (transformMessage (freshMessage db now d)).fileName = d.fileName ∧
      (transformMessage (freshMessage db now d)).fileType = d.fileType ∧
      (transformMessage (freshMessage db now d)).isDeleted = false ∧
      (transformMessage (freshMessage db now d)).timestamp = now := by
    intro db now d
    obtain ⟨h1, h2, h3, h4⟩ := transform_live (m := freshMessage db now d) rfl
    exact ⟨h1, h2, h3, h4, transform_isDeleted _, transform_timestamp _⟩
  refine ⟨?_, ?_, ?_, ?_, ?_, fun m h => transform_live h⟩
  · intro db now d db' out r h hrec
    obtain ⟨hmsgs, _, _, hout, _⟩ := createMessage_ok h
    have hfresh : freshMessage db now d ∈ db'.messages := by
      rw [hmsgs]
      exact List.mem_append_right _ (List.mem_singleton_self _)
    have hmatch : directMatch d.senderId r (freshMessage db now d) = true := by
      simp [directMatch, freshMessage, hrec]
    subst hout
    exact ⟨mem_getBetween.mpr ⟨_, hfresh, hmatch, rfl⟩,
      hfreshfields db now d⟩
  · intro db now d db' out g h hgrp
    obtain ⟨hmsgs, _, _, hout, _⟩ := createMessage_ok h
    have hfresh : freshMessage db now d ∈ db'.messages := by
      rw [hmsgs]
      exact List.mem_append_right _ (List.mem_singleton_self _)
    subst hout
    exact ⟨mem_getGroup.mpr ⟨_, hfresh, hgrp, rfl⟩, hfreshfields db now d⟩
  · intro db op m hm hnot
    cases op with
    | createUser now i u p =>
        simp only [applyOp]
        split
        · next db' out heq =>
            rw [(createUser_frame heq).1]
            exact hm
        · exact hm
    | setUserOnlineStatus now id b => exact hm
    | updateUser id up =>
        simp only [applyOp]
        split
        · next db' out heq =>
            rw [(updateUser_frame heq).1]
            exact hm
        · exact hm
    | deleteUser uid =>
        simp only [opDeletes] at hnot
        rw [not_or] at hnot
        refine List.mem_filter.mpr ⟨hm, ?_⟩
        simp [beq_eq_false_iff_ne.mpr hnot.1, hnot.2]
    | createMessage now d =>
        simp only [applyOp]
        split
        · next db' out heq =>
            rw [(createMessage_ok heq).1]
            exact List.mem_append_left _ hm
        · exact hm
    | deleteMessage mid uid =>
        simp only [applyOp]
        split
        · next db' heq =>
            rw [(deleteMessage_ok heq).2.2.1]
            have hkeep : flagDeleted mid m = m := by
              have hne : (m.id == mid) = false :=
                beq_eq_false_iff_ne.mpr fun hc => hnot hc.symm
              simp [flagDeleted, hne]
            have hmem2 := List.mem_map_of_mem (flagDeleted mid) hm
            rwa [hkeep] at hmem2
        · exact hm
    | createGroup now n a ms => exact hm
    | addGroupMembers gid ms => exact hm
    | removeGroupMember gid mi => exact hm
    | deleteGroup gid uid =>
        simp only [applyOp]
        split
        · next db' heq =>
            rw [(deleteGroup_ok heq).2.1]
            refine List.mem_filter.mpr ⟨hm, ?_⟩
            simpa using hnot
        · exact hm
  · intro db m r hm hrec
    refine mem_getBetween.mpr ⟨m, hm, ?_, rfl⟩
    simp [directMatch, hrec]
  · intro db m g hm hgrp
    exact mem_getGroup.mpr ⟨m, hm, hgrp, rfl⟩

/-- Closed instance of `claim7`: Bob's freshly created direct message to
Alice appears on their conversation's read path with the supplied
fields. -/
theorem claim7_witness :
    transformMessage mNew ∈
      getMessagesBetweenUsers exDBnew "u-bob" "u-alice" ∧
    (transformMessage mNew).content = dNew.content ∧
    (transformMessage mNew).fileUrl = dNew.fileUrl ∧
    (transformMessage mNew).fileName = dNew.fileName ∧
    (transformMessage mNew).fileType = dNew.fileType ∧
    (transformMessage mNew).isDeleted = false ∧
    (transformMessage mNew).timestamp = 9 :=
  claim7.1 exDB 9 dNew exDBnew (transformMessage mNew) "u-alice" rfl rfl

/-- An empty pattern occurs in every text. -/
theorem containsSeg_nil (t : List Char) : containsSeg t [] = true := by
  cases t <;> rfl

/-- `leadSeg p t` decides whether `t` starts with `p`. -/
theorem leadSeg_iff (p : List Char) :
    ∀ t : List Char, leadSeg p t = true ↔ ∃ r, t = p ++ r := by
  induction p with
  | nil =>
      intro t
      simp [leadSeg]
  | cons c ps ih =>
      intro t
      cases t with
      | nil => simp [leadSeg]
      | cons b ts =>
          simp only [leadSeg, Bool.and_eq_true, beq_iff_eq, ih ts]
          constructor
          · rintro ⟨rfl, r, rfl⟩
            exact ⟨r, rfl⟩
          · rintro ⟨r, hr⟩
            injection hr with h1 h2
            exact ⟨h1.symm, r, h2⟩

/-- `containsSeg t p` decides whether `p` occurs contiguously in `t`. -/
theorem containsSeg_iff (p : List Char) :
    ∀ t : List Char, containsSeg t p = true ↔ ∃ l r, t = l ++ p ++ r := by
  intro t
  induction t with
  | nil =>
      constructor
      · intro h
        have hp : p = [] := by
          simpa [containsSeg, List.isEmpty_iff] using h
        exact ⟨[], [], by simp [hp]⟩
      · rintro ⟨l, r, h⟩
        have h2 := List.append_eq_nil.mp h.symm
        have h3 := List.append_eq_nil.mp h2.1
        simp [containsSeg, List.isEmpty_iff, h3.2]
  | cons c ts ih =>
      simp only [containsSeg, Bool.or_eq_true]
      constructor
      · intro h
        rcases h with hl | hc
        · obtain ⟨r, hr⟩ := (leadSeg_iff p _).mp hl
          exact ⟨[], r, by simpa using hr⟩
        · obtain ⟨l, r, hr⟩ := ih.mp hc
          exact ⟨c :: l, r, by simp [hr]⟩
      · rintro ⟨l, r, hr⟩
        cases l with
        | nil =>
            left
            exact (leadSeg_iff p _).mpr ⟨r, by simpa using hr⟩
        | cons x l' =>
            right
            have hx : c :: ts = x :: (l' ++ p ++ r) := by simpa using hr
            injection hx with h1 h2
            exact ih.mpr ⟨l', r, h2⟩

/-- The empty query matches every username (the empty regex matches every
string). -/
theorem usernameMatches_empty (hay : String) :
    usernameMatches hay "" = true := by
  unfold usernameMatches
  exact containsSeg_nil _

/-- C9 counterexample: on a nonempty store, `searchUsers` with the empty
query returns every user — the empty `$regex` pattern matches all
usernames — not the empty list the claim states.  (The `[]`-for-empty
behavior lives in the HTTP route, which short-circuits before calling
`searchUsers`.) -/
theorem claim9_counterexample :
    searchUsers exDB "" =
      [transformUser aliceU, transformUser bobU, transformUser alvinU] ∧
    searchUsers exDB "" ≠ [] :=
  ⟨by decide, by decide⟩

/-- C9 (amended): `searchUsers(query)` returns exactly the users whose
username matches the query as a case-insensitive regular expression; for
metacharacter-free queries that means the lowercased query occurs as a
contiguous substring of the lowercased username.  The empty query matches
every user, so `searchUsers` returns the whole user list for it; the
empty-query-to-`[]` rule is enforced by the HTTP search route, which
returns `[]` without consulting the store (and also drops the requester
from nonempty results). -/
theorem claim9 :
    (∀ (db : DB) (q : String) (u : UserOut),
       u ∈ searchUsers db q ↔
         ∃ su, su ∈ db.users ∧ u = transformUser su ∧
           usernameMatches su.username q = true) ∧
    (∀ hay pat : String,
       usernameMatches hay pat = true ↔
         ∃ l r : List Char, lowerChars hay = l ++ lowerChars pat ++ r) ∧
    (∀ db : DB, searchUsers db "" = db.users.map transformUser) ∧
    (∀ (db : DB) (rid : String), apiSearchUsers db rid "" = []) ∧
    (∀ (db : DB) (rid q : String), q ≠ "" →
       apiSearchUsers db rid q =
         (searchUsers db q).filter (fun u => u.id != rid)) := by
  refine ⟨?_, ?_, ?_, ?_, ?_⟩
  · intro db q u
    unfold searchUsers
    rw [List.mem_map]
    constructor
    · rintro ⟨su, hsu, rfl⟩
      have h2 := List.mem_filter.mp hsu
      exact ⟨su, h2.1, rfl, h2.2⟩
    · rintro ⟨su, hmem, rfl, hmatch⟩
      exact ⟨su, List.mem_filter.mpr ⟨hmem, hmatch⟩, rfl⟩
  · intro hay pat
    exact containsSeg_iff (lowerChars pat) (lowerChars hay)
  · intro db
    unfold searchUsers
    rw [List.filter_eq_self.mpr fun u _ => usernameMatches_empty u.username]
  · intro db rid
    simp [apiSearchUsers]
  · intro db rid q hq
    simp [apiSearchUsers, hq]

/-- Closed instance of `claim9`: the route's behavior on the nonempty
query "al", which matches "Alice" and "alvin" case-insensitively. -/
theorem claim9_witness :
    apiSearchUsers exDB "u-bob" "al" =
      (searchUsers exDB "al").filter (fun u => u.id != "u-bob") :=
  claim9.2.2.2.2 exDB "u-bob" "al" (by decide)

end QuickTalk
